import Mathlib

/-!
Verification development for the `damask_parse.readers` module of the
damask-parse repository.  The Python source is shallowly embedded here:

* text is modelled as `List Char` (file contents arrive as `String` and are
  converted with `String.toList`);
* Python floats are modelled as exact unnormalized fractions (`PyFloat`);
  every numeric value the readers handle is a decimal literal or a unit
  fraction, so all are exactly representable;
* code that can raise an exception (`AttributeError` on a failed regex
  `.group`, `KeyError`, `TypeError` on `None`, `ValueError`,
  `ZeroDivisionError`) is modelled as returning `Option`, with `none` for any
  raised exception;
* the regular expressions of the source are embedded as deterministic
  character scanners.  Each quantifier in the source patterns is followed by
  a character disjoint from the quantified class (e.g. `\s+` followed by `=`,
  `\d+` followed by `.`), so greedy matching with backtracking coincides with
  maximal munch; the only genuinely backtracking pieces are the `(.*)` groups
  (which cannot cross a newline in Python `re`), embedded below by trying
  split points of the current line longest-first (`dotStarRun`), exactly the
  preference order of a greedy `.*`.
-/

/-- Python `\s` class: space, tab, newline, carriage return, form feed,
vertical tab (the inputs of this development are ASCII). -/
def isWs (c : Char) : Bool :=
  c = ' ' || c = '\t' || c = '\n' || c = '\r' || c = '\x0b' || c = '\x0c'

/-- Python `\d` class. -/
def isDigitCh (c : Char) : Bool :=
  '0' ≤ c && c ≤ '9'

/-- Match a literal sequence of characters at the head of the input and
return the remainder (regex literal text). -/
def eatLit : List Char → List Char → Option (List Char)
  | [], s => some s
  | _ :: _, [] => none
  | p :: ps, c :: cs => if c = p then eatLit ps cs else none

/-- Regex `\s+` in a position where the following pattern character is not
itself whitespace: consume one or more whitespace characters, maximally. -/
def eatWs1 : List Char → Option (List Char)
  | [] => none
  | c :: cs => if isWs c then some (cs.dropWhile isWs) else none

/-- Regex `\s` (exactly one whitespace character). -/
def eatOneWs : List Char → Option (List Char)
  | [] => none
  | c :: cs => if isWs c then some cs else none

/-- Regex `\s+\s+` followed by a non-whitespace character: at least two
whitespace characters, all of them consumed. -/
def eatWs2 : List Char → Option (List Char)
  | c :: c2 :: cs =>
    if isWs c && isWs c2 then some ((c2 :: cs).dropWhile isWs) else none
  | _ => none

/-- Numeric value of a digit string. -/
def digitsToNat (ds : List Char) : Nat :=
  ds.foldl (fun a c => a * 10 + (c.toNat - 48)) 0

/-- Regex `(\d+)` in a position whose follower is not a digit: one or more
digits, maximally, returning their value. -/
def eatNat (s : List Char) : Option (Nat × List Char) :=
  let ds := s.takeWhile isDigitCh
  if ds.isEmpty then none else some (digitsToNat ds, s.dropWhile isDigitCh)

/-- Digits together with their count (needed to scale a fraction part). -/
def eatDigitsCnt (s : List Char) : Option (Nat × Nat × List Char) :=
  let ds := s.takeWhile isDigitCh
  if ds.isEmpty then none else some (digitsToNat ds, ds.length, s.dropWhile isDigitCh)

/-- Exact value of a parsed Python float, kept as an unnormalized fraction
(numerator over a positive denominator).  Every float the readers parse is a
decimal literal, and the one computed float (`inc_cut_back = 1/d`) is a unit
fraction, so all of them are represented exactly. -/
structure PyFloat where
  num : Int
  den : Nat
deriving DecidableEq, Repr

/-- The float with integer value `n`. -/
def PyFloat.ofNat (n : Nat) : PyFloat := ⟨n, 1⟩

/-- Value equality of two represented floats (cross multiplication; all
constructed denominators are positive). -/
def PyFloat.eqv (x y : PyFloat) : Bool :=
  x.num * (y.den : Int) == y.num * (x.den : Int)

/-- The rational value a `PyFloat` denotes. -/
def PyFloat.toRat (x : PyFloat) : Rat :=
  (x.num : Rat) / (x.den : Rat)

/-- Value equality of two float matrices, elementwise. -/
def rowEqv (a b : List PyFloat) : Bool :=
  a.length == b.length && (a.zip b).all fun p => p.1.eqv p.2

/-- Value equality of two row lists of floats. -/
def matEqv (a b : List (List PyFloat)) : Bool :=
  a.length == b.length && (a.zip b).all fun p => rowEqv p.1 p.2

/-- The source's fixed-point float pattern `-?\d+\.\d+` (`float_pat`), with
the leading `-?` only where the source pattern has it; returns the value
`float()` would produce (`ip.fp` scaled by the fraction length), exactly. -/
def eatFloatTok (allowNeg : Bool) (s : List Char) : Option (PyFloat × List Char) :=
  match s with
  | '-' :: t =>
    if allowNeg then
      match eatDigitsCnt t with
      | none => none
      | some (ip, _, r1) =>
        match r1 with
        | '.' :: r2 =>
          match eatDigitsCnt r2 with
          | none => none
          | some (fp, k, r3) => some (⟨-((ip * 10 ^ k + fp : Nat) : Int), 10 ^ k⟩, r3)
        | _ => none
    else none
  | _ =>
    match eatDigitsCnt s with
    | none => none
    | some (ip, _, r1) =>
      match r1 with
      | '.' :: r2 =>
        match eatDigitsCnt r2 with
        | none => none
        | some (fp, k, r3) => some (⟨((ip * 10 ^ k + fp : Nat) : Int), 10 ^ k⟩, r3)
      | _ => none

/-- The source's scientific float pattern `-?\d+\.\d+E[+|-]\d+`
(`sci_float_pat`).  The character class `[+|-]` of the source also admits a
literal `|`; such a match succeeds at the regex level but the later
`float(...)` conversion raises, which is modelled by returning `none` as the
value while still consuming the matched text. -/
def eatSciTok (allowNeg : Bool) (s : List Char) : Option (Option PyFloat × List Char) :=
  match eatFloatTok allowNeg s with
  | none => none
  | some (m, r1) =>
    match r1 with
    | 'E' :: r2 =>
      match r2 with
      | '+' :: r3 =>
        match eatNat r3 with
        | none => none
        | some (e, r4) => some (some ⟨m.num * (10 : Int) ^ e, m.den⟩, r4)
      | '-' :: r3 =>
        match eatNat r3 with
        | none => none
        | some (e, r4) => some (some ⟨m.num, m.den * 10 ^ e⟩, r4)
      | '|' :: r3 =>
        match eatNat r3 with
        | none => none
        | some (_, r4) => some (none, r4)
      | _ => none
    | _ => none

/-- Leftmost search: `re.search` tries the pattern at every start position
from the left and returns the first success. -/
def searchSome (f : List Char → Option α) : List Char → Option α
  | [] => f []
  | c :: cs =>
    match f (c :: cs) with
    | some a => some a
    | none => searchSome f cs

/-- Backtracking for a `(.*)` group: `.` does not match a newline, and the
greedy group prefers the longest prefix of the current line for which the
continuation succeeds.  `dsGo cont s k` tries split points `k, k-1, ..., 0`. -/
def dsGo (cont : List Char → Option α) (s : List Char) : Nat → Option (List Char × α)
  | 0 =>
    match cont s with
    | some a => some ([], a)
    | none => none
  | k + 1 =>
    match cont (s.drop (k + 1)) with
    | some a => some (s.take (k + 1), a)
    | none => dsGo cont s k

/-- Match `(.*)` followed by the continuation, returning the captured group
and the continuation's result. -/
def dotStarRun (cont : List Char → Option α) (s : List Char) : Option (List Char × α) :=
  dsGo cont s (s.takeWhile (· ≠ '\n')).length

/-- Python `str.strip()` on the (ASCII) whitespace class. -/
def stripWs (s : List Char) : List Char :=
  ((s.dropWhile isWs).reverse.dropWhile isWs).reverse

/-- Python `.replace(' ', '_')`. -/
def underscoreSpaces (s : List Char) : List Char :=
  s.map (fun c => if c = ' ' then '_' else c)

/-- Python `str.splitlines` for newline-delimited text (the geometry inputs
use `\n` line endings only): no trailing empty line is produced. -/
def lineGo : List Char → List Char → List (List Char)
  | acc, [] => [acc.reverse]
  | acc, c :: t =>
    if c = '\n' then
      match t with
      | [] => [acc.reverse]
      | _ :: _ => acc.reverse :: lineGo [] t
    else lineGo (c :: acc) t

/-- Split text into lines, Python `splitlines` style. -/
def splitLinesCh : List Char → List (List Char)
  | [] => []
  | s => lineGo [] s

/-- Python `str.split()` with no arguments: split on whitespace runs,
discarding empty tokens (fuelled; fuel `length + 1` always suffices). -/
def wsGo : Nat → List Char → List (List Char)
  | 0, _ => []
  | _ + 1, [] => []
  | fuel + 1, c :: t =>
    if isWs c then wsGo fuel t
    else (c :: t.takeWhile (fun d => ¬ isWs d)) :: wsGo fuel (t.dropWhile (fun d => ¬ isWs d))

/-- Tokenize on whitespace (Python `str.split()`). -/
def splitWsCh (s : List Char) : List (List Char) :=
  wsGo (s.length + 1) s

/-- Python `int(tok)` on a whitespace-free token: optional sign then digits,
the whole token consumed; anything else raises (`none`). -/
def parseIntTok (tok : List Char) : Option Int :=
  match tok with
  | '-' :: t =>
    if t ≠ [] && t.all isDigitCh then some (-(digitsToNat t : Int)) else none
  | '+' :: t =>
    if t ≠ [] && t.all isDigitCh then some ((digitsToNat t : Int)) else none
  | t =>
    if t ≠ [] && t.all isDigitCh then some ((digitsToNat t : Int)) else none

/-- Option-valued `mapM` over a list, written out so that induction lemmas
are immediate. -/
def mapOptM (f : α → Option β) : List α → Option (List β)
  | [] => some []
  | x :: t =>
    match f x with
    | none => none
    | some y =>
      match mapOptM f t with
      | none => none
      | some ys => some (y :: ys)

/-- Option-valued left fold over a list. -/
def foldOptM (f : σ → α → Option σ) : σ → List α → Option σ
  | st, [] => some st
  | st, x :: t =>
    match f st x with
    | none => none
    | some st2 => foldOptM f st2 t

/-- Splitter for `re.split`: `m s` returns the length of a separator match
at the head of `s` (separators here always consume at least one character).
Segments between matches are returned, empty segments included, exactly as
`re.split` produces them.  Fuelled; fuel `length + 1` always suffices. -/
def splitSep (m : List Char → Option Nat) : Nat → List Char → List Char → List (List Char)
  | 0, acc, s => [acc.reverse ++ s]
  | fuel + 1, acc, s =>
    match m s with
    | some k => acc.reverse :: splitSep m fuel [] (s.drop k)
    | none =>
      match s with
      | [] => [acc.reverse]
      | c :: t => splitSep m fuel (c :: acc) t

/-! ## Data model

Mirrors of the dictionaries the Python readers build.  Floats are
`PyFloat`, 3x3 tensors are row lists. -/

/-- One convergence-error record of an iteration: the dict
`{value, unit, tol, relative}` built in `parse_increment_iteration`. -/
structure ErrVal where
  value : PyFloat
  unit : String
  tol : PyFloat
  relative : PyFloat
deriving DecidableEq, Repr

/-- The three parallel per-iteration sequences kept for one error metric
(`{value: [], tol: [], relative: []}`). -/
structure ErrCols where
  value : List PyFloat
  tol : List PyFloat
  relative : List PyFloat
deriving DecidableEq, Repr

/-- Empty column record pre-allocated for a freshly discovered metric key. -/
def ErrCols.empty : ErrCols := { value := [], tol := [], relative := [] }

/-- Result of `parse_increment_iteration`: the two tensors plus the ordered
association list of discovered `error_<metric>` records (Python dict with
insertion order). -/
structure IncIter where
  dg : List (List PyFloat)
  pk : List (List PyFloat)
  errors : List (String × ErrVal)
deriving DecidableEq, Repr

/-- One warning record `{code, message}`. -/
structure Warning where
  code : Nat
  message : String
deriving DecidableEq, Repr

/-- Converged-increment record built by `parse_increment`. -/
structure ConvergedInc where
  incNumber : Nat
  incTime : PyFloat
  incCutBack : PyFloat
  incLoadCase : Nat
  dg : List (List (List PyFloat))
  pk : List (List (List PyFloat))
  numIters : Nat
  convergeErrors : List (String × ErrCols)
deriving DecidableEq, Repr

/-- Result of `parse_increment`: the non-converged dict carries only the
warnings; the converged dict has no `warnings` key at all. -/
inductive ParsedInc where
  | nonConverged (warnings : List Warning)
  | converged (d : ConvergedInc)
deriving DecidableEq, Repr

/-! ## Iteration-chunk matchers (`parse_increment_iteration`) -/

/-- Reshape the nine captured floats to a row-major 3x3 matrix
(`np.array(...).reshape((3, 3))`). -/
def toMat3 (xs : List PyFloat) : List (List PyFloat) :=
  [xs.take 3, (xs.drop 3).take 3, (xs.drop 6).take 3]

/-- Nine repetitions of `float_pat` followed by `\s+` each, the tail of both
tensor patterns `(\s+(?:(?:-?\d+\.\d+\s+){3}){3})`.  The captured group is
split on whitespace and converted with `float()`, which yields exactly these
nine values in order. -/
def floatsWs : Nat → List Char → Option (List PyFloat × List Char)
  | 0, r => some ([], r)
  | n + 1, r =>
    match eatFloatTok true r with
    | none => none
    | some (v, r1) =>
      match eatWs1 r1 with
      | none => none
      | some r2 =>
        match floatsWs n r2 with
        | none => none
        | some (vs, r3) => some (v :: vs, r3)

/-- `dg_pat = deformation gradient aim\s+=\n(\s+(?:(?:-?\d+\.\d+\s+){3}){3})`
matched at the current position, returning the nine numbers of the captured
group. -/
def dgMatchAt (s : List Char) : Option (List PyFloat) := do
  let r ← eatLit "deformation gradient aim".toList s
  let r ← eatWs1 r
  let r ← eatLit ['='] r
  let r ← eatLit ['\n'] r
  let r ← eatWs1 r
  let (vs, _) ← floatsWs 9 r
  pure vs

/-- `pk_pat = Piola--Kirchhoff stress\s+\/\s.*=\n(...)` matched at the
current position: after `/` and one whitespace character, `.*=` forces the
rest of the physical line to end in `=` (the greedy `.*` cannot cross the
newline, so only the line-final `=` can precede the literal `\n`). -/
def pkMatchAt (s : List Char) : Option (List PyFloat) := do
  let r ← eatLit "Piola--Kirchhoff stress".toList s
  let r ← eatWs1 r
  let r ← eatLit ['/'] r
  let r ← eatOneWs r
  let line := r.takeWhile (· ≠ '\n')
  let r ← match r.drop line.length with
    | '\n' :: r2 => if line.getLast? = some '=' then some r2 else none
    | _ => none
  let r ← eatWs1 r
  let (vs, _) ← floatsWs 9 r
  pure vs

/-- The five captured groups of one `err_pat` match:
`error (.*)\s+=\s+(-?\d+\.\d+)\s\((sci)\s(.*),\s+tol\s+=\s+(sci)\)`.
The two scientific-notation values are `none` when the matched text would
make the later `float()` conversion raise. -/
structure ErrGroups where
  name : List Char
  relative : PyFloat
  value : Option PyFloat
  unit : List Char
  tol : Option PyFloat
deriving DecidableEq, Repr

/-- Continuation after the unit group of `err_pat`:
`,\s+tol\s+=\s+(sci)\)`, returning the tolerance group and the remainder. -/
def errTolCont (r : List Char) : Option (Option PyFloat × List Char) :=
  match eatLit [','] r with
  | none => none
  | some r =>
    match eatWs1 r with
    | none => none
    | some r =>
      match eatLit "tol".toList r with
      | none => none
      | some r =>
        match eatWs1 r with
        | none => none
        | some r =>
          match eatLit ['='] r with
          | none => none
          | some r =>
            match eatWs1 r with
            | none => none
            | some r =>
              match eatSciTok true r with
              | none => none
              | some (t, r) =>
                match eatLit [')'] r with
                | none => none
                | some r => some (t, r)

/-- Continuation after the name group of `err_pat`:
`\s+=\s+(-?\d+\.\d+)\s\((sci)\s(.*),\s+tol\s+=\s+(sci)\)`, returning the
relative-value group, the value group, the unit group and the remainder. -/
def errRestCont (r : List Char) : Option (PyFloat × Option PyFloat × List Char × Option PyFloat × List Char) :=
  match eatWs1 r with
  | none => none
  | some r =>
    match eatLit ['='] r with
    | none => none
    | some r =>
      match eatWs1 r with
      | none => none
      | some r =>
        match eatFloatTok true r with
        | none => none
        | some (rel, r) =>
          match eatOneWs r with
          | none => none
          | some r =>
            match eatLit ['('] r with
            | none => none
            | some r =>
              match eatSciTok true r with
              | none => none
              | some (v, r) =>
                match eatOneWs r with
                | none => none
                | some r =>
                  match dotStarRun errTolCont r with
                  | none => none
                  | some (g4, (t, rest)) => some (rel, v, g4, t, rest)

/-- One `err_pat` match attempt at the current position; the `(.*)` groups
backtrack longest-first within their line via `dotStarRun`. -/
def errMatchAt (s : List Char) : Option (ErrGroups × List Char) :=
  match eatLit "error ".toList s with
  | none => none
  | some r =>
    match dotStarRun errRestCont r with
    | none => none
    | some (g1, (rel, v, g4, t, rest)) =>
      some ({ name := g1, relative := rel, value := v, unit := g4, tol := t }, rest)

/-- `re.findall(err_pat, ...)`: leftmost matches, scanning resumes after
each match (fuelled; fuel `length + 1` suffices since every step consumes at
least one character). -/
def findAllErr : Nat → List Char → List ErrGroups
  | 0, _ => []
  | fuel + 1, s =>
    match errMatchAt s with
    | some (g, rest) => g :: findAllErr fuel rest
    | none =>
      match s with
      | [] => []
      | _ :: t => findAllErr fuel t

/-- Python dict update used for `converge_err.update({err_key: ...})`: an
existing key keeps its position and gets the new value, a new key is
appended. -/
def dictUpdate : List (String × ErrVal) → String → ErrVal → List (String × ErrVal)
  | [], k, v => [(k, v)]
  | (k0, v0) :: t, k, v =>
    if k0 = k then (k0, v) :: t else (k0, v0) :: dictUpdate t k v

/-- Build the `converge_err` dict from the `err_pat` matches.  The key is
`'error_' + name.strip().replace(' ', '_')`; the `float()` conversions of
the scientific groups raise (yield `none`) when the exponent sign was the
class member `|`. -/
def buildConvergeErr : List ErrGroups → List (String × ErrVal) → Option (List (String × ErrVal))
  | [], acc => some acc
  | g :: t, acc =>
    match g.value, g.tol with
    | some v, some tl =>
      buildConvergeErr t (dictUpdate acc
        (String.mk ("error_".toList ++ underscoreSpaces (stripWs g.name)))
        { value := v, unit := String.mk (stripWs g.unit), tol := tl, relative := g.relative })
    | _, _ => none

/-- Embedding of `parse_increment_iteration`: the two tensor searches raise
(`.group(1)` on `None`) when their patterns are absent; the error-metric
list may be empty. -/
def parseIncrementIteration (s : List Char) : Option IncIter :=
  match searchSome dgMatchAt s with
  | none => none
  | some dg =>
    match searchSome pkMatchAt s with
    | none => none
    | some pk =>
      match buildConvergeErr (findAllErr (s.length + 1) s) [] with
      | none => none
      | some errs => some { dg := toMat3 dg, pk := toMat3 pk, errors := errs }

/-! ## Increment-chunk parsing (`parse_increment`) -/

/-- Regex `─+` (one or more box-drawing horizontal bars, maximal; the
follower in `warn_msg` is `┤`, not a bar). -/
def eatBars1 : List Char → Option (List Char)
  | [] => none
  | c :: cs => if c = '─' then some (cs.dropWhile (· = '─')) else none

/-- Innermost continuation of `warn_msg`: the closing `│` after the second
message-fragment group. -/
def warnEndCont (r : List Char) : Option (List Char) :=
  eatLit ['│'] r

/-- Continuation after the first message-fragment group of `warn_msg`:
`│\s+\s+│(.*)│`, returning the second fragment and the remainder. -/
def warnSecondCont (r : List Char) : Option (List Char × List Char) :=
  match eatLit ['│'] r with
  | none => none
  | some r =>
    match eatWs2 r with
    | none => none
    | some r =>
      match eatLit ['│'] r with
      | none => none
      | some r => dotStarRun warnEndCont r

/-- One match attempt of the source's warning-block pattern
`│\s+warning\s+│\s+│\s+(\d+)\s+│\s+├─+┤\s+│(.*)│\s+\s+│(.*)│` at the current
position.  The warning record joins the two stripped fragments with a single
space, as `parse_increment` does. -/
def warnMatchAt (s : List Char) : Option (Warning × List Char) :=
  match eatLit ['│'] s with
  | none => none
  | some r =>
    match eatWs1 r with
    | none => none
    | some r =>
      match eatLit "warning".toList r with
      | none => none
      | some r =>
        match eatWs1 r with
        | none => none
        | some r =>
          match eatLit ['│'] r with
          | none => none
          | some r =>
            match eatWs1 r with
            | none => none
            | some r =>
              match eatLit ['│'] r with
              | none => none
              | some r =>
                match eatWs1 r with
                | none => none
                | some r =>
                  match eatNat r with
                  | none => none
                  | some (code, r) =>
                    match eatWs1 r with
                    | none => none
                    | some r =>
                      match eatLit ['│'] r with
                      | none => none
                      | some r =>
                        match eatWs1 r with
                        | none => none
                        | some r =>
                          match eatLit ['├'] r with
                          | none => none
                          | some r =>
                            match eatBars1 r with
                            | none => none
                            | some r =>
                              match eatLit ['┤'] r with
                              | none => none
                              | some r =>
                                match eatWs1 r with
                                | none => none
                                | some r =>
                                  match eatLit ['│'] r with
                                  | none => none
                                  | some r =>
                                    match dotStarRun warnSecondCont r with
                                    | none => none
                                    | some (g2, (g3, rest)) =>
                                      some ({ code := code,
                                              message := String.mk (stripWs g2 ++ ' ' :: stripWs g3) },
                                            rest)

/-- `re.findall(warn_msg, inc_str)` (fuelled scan, non-overlapping leftmost
matches). -/
def findAllWarn : Nat → List Char → List Warning
  | 0, _ => []
  | fuel + 1, s =>
    match warnMatchAt s with
    | some (w, rest) => w :: findAllWarn fuel rest
    | none =>
      match s with
      | [] => []
      | _ :: t => findAllWarn fuel t

/-- One match attempt of `increment\s\d+\sconverged`. -/
def convMatchAt (s : List Char) : Option Unit :=
  match eatLit "increment".toList s with
  | none => none
  | some r =>
    match eatOneWs r with
    | none => none
    | some r =>
      match eatNat r with
      | none => none
      | some (_, r) =>
        match eatOneWs r with
        | none => none
        | some r =>
          match eatLit "converged".toList r with
          | none => none
          | some _ => some ()

/-- `re.search(r'increment\s\d+\sconverged', inc_str)` as a Boolean. -/
def hasConvergedMark (s : List Char) : Bool :=
  (searchSome convMatchAt s).isSome

/-- One match attempt of `inc_position_pat`
`Time\s+(\d+\.\d+E[+|-]\d+)s:\s+Increment\s+(\d+\/\d+)-(\d+\/\d+)\s+of\sload\scase\s+(\d+)`.
Only the pieces the source consumes afterwards are returned: the time group
(as the value `float()` yields, `none` if that conversion would raise), the
numerator of the second group (`inc_number`), the denominator of the third
group (used for `inc_cut_back = 1/d`) and the load-case group. -/
def incPosMatchAt (s : List Char) : Option (Option PyFloat × Nat × Nat × Nat) :=
  match eatLit "Time".toList s with
  | none => none
  | some r =>
    match eatWs1 r with
    | none => none
    | some r =>
      match eatSciTok false r with
      | none => none
      | some (t, r) =>
        match eatLit "s:".toList r with
        | none => none
        | some r =>
          match eatWs1 r with
          | none => none
          | some r =>
            match eatLit "Increment".toList r with
            | none => none
            | some r =>
              match eatWs1 r with
              | none => none
              | some r =>
                match eatNat r with
                | none => none
                | some (a, r) =>
                  match eatLit ['/'] r with
                  | none => none
                  | some r =>
                    match eatNat r with
                    | none => none
                    | some (_, r) =>
                      match eatLit ['-'] r with
                      | none => none
                      | some r =>
                        match eatNat r with
                        | none => none
                        | some (_, r) =>
                          match eatLit ['/'] r with
                          | none => none
                          | some r =>
                            match eatNat r with
                            | none => none
                            | some (d, r) =>
                              match eatWs1 r with
                              | none => none
                              | some r =>
                                match eatLit "of".toList r with
                                | none => none
                                | some r =>
                                  match eatOneWs r with
                                  | none => none
                                  | some r =>
                                    match eatLit "load".toList r with
                                    | none => none
                                    | some r =>
                                      match eatOneWs r with
                                      | none => none
                                      | some r =>
                                        match eatLit "case".toList r with
                                        | none => none
                                        | some r =>
                                          match eatWs1 r with
                                          | none => none
                                          | some r =>
                                            match eatNat r with
                                            | none => none
                                            | some (n, _) => some (t, a, d, n)

/-- Separator matcher for `re.split(r'={75}', inc_str)`. -/
def eqSepAt (s : List Char) : Option Nat :=
  if s.take 75 = List.replicate 75 '=' then some 75 else none

/-- `re.split(r'={75}', inc_str)`. -/
def splitEqRule (s : List Char) : List (List Char) :=
  splitSep eqSepAt (s.length + 1) [] s

/-- Separator matcher for `re.split(r'\s#{75}', lines)`. -/
def hashSepAt (s : List Char) : Option Nat :=
  match s with
  | c :: t => if isWs c && t.take 75 = List.replicate 75 '#' then some 76 else none
  | [] => none

/-- `re.split(r'\s#{75}', lines)`. -/
def splitHashRule (s : List Char) : List (List Char) :=
  splitSep hashSepAt (s.length + 1) [] s

/-- Association-list lookup mirroring a Python dict subscript
(`inc_iter_i[j]`): `none` models the `KeyError`. -/
def lookupErr : List (String × ErrVal) → String → Option ErrVal
  | [], _ => none
  | (k, v) :: t, key => if k = key then some v else lookupErr t key

/-- The error-metric keys of a parsed iteration, in discovery order: the
source filters `inc_iter_i.keys()` with `startswith('error_')`, which keeps
exactly the keys of the `converge_err` dict (all of them carry the
`error_` prefix; the two tensor keys do not). -/
def errKeysOf (it : IncIter) : List String :=
  it.errors.map Prod.fst

/-- Accumulator of the iteration loop of `parse_increment`: `dg_arr`,
`pk_arr` and the `converge_errors` columns keyed by the first iteration's
metric keys. -/
structure AggAcc where
  dg : List (List (List PyFloat))
  pk : List (List (List PyFloat))
  cols : List (String × ErrCols)
deriving DecidableEq, Repr

/-- One key's bookkeeping in the loop body: append the iteration's `value`,
`tol` and `relative` for this `converge_errors` entry; a key the iteration
does not expose raises `KeyError` (`none`). -/
def appendColsOne (it : IncIter) (kc : String × ErrCols) : Option (String × ErrCols) :=
  match lookupErr it.errors kc.1 with
  | none => none
  | some v => some (kc.1,
      { value := kc.2.value ++ [v.value],
        tol := kc.2.tol ++ [v.tol],
        relative := kc.2.relative ++ [v.relative] })

/-- The loop body's error bookkeeping: for every key of `converge_errors`
(which are exactly `err_keys`, fixed at the first iteration), append the
iteration's values.  Keys present in the iteration but not in `err_keys`
are never consulted. -/
def appendCols (cols : List (String × ErrCols)) (it : IncIter) : Option (List (String × ErrCols)) :=
  mapOptM (appendColsOne it) cols

/-- One pass of the iteration loop of `parse_increment` (lines 105-121):
append the two tensors and the per-key error columns. -/
def aggStep (st : AggAcc) (it : IncIter) : Option AggAcc :=
  match appendCols st.cols it with
  | none => none
  | some c2 => some { dg := st.dg ++ [it.dg], pk := st.pk ++ [it.pk], cols := c2 }

/-- The iteration loop of `parse_increment`, with `err_keys` captured from
the first iteration and the columns pre-allocated empty.  An empty iteration
list leaves `err_keys = None` and the loop over `None` on line 125 raises
(`none`).  The source interleaves `parse_increment_iteration` with this
aggregation inside one loop; splitting it into parse-then-fold is
equivalent, because any failure makes the whole call raise. -/
def aggregateIterations : List IncIter → Option AggAcc
  | [] => none
  | it0 :: rest =>
    foldOptM aggStep
      { dg := [], pk := [], cols := (errKeysOf it0).map (fun k => (k, ErrCols.empty)) }
      (it0 :: rest)

/-- Embedding of `parse_increment`: warnings are extracted first; without
the converged marker only they are returned.  A converged chunk must match
the position header (`.groups()` on `None` raises), must not divide by zero
in `1 / int(d)`, and aggregates all split segments except the final one. -/
def parseIncrement (s : List Char) : Option ParsedInc :=
  let warns := findAllWarn (s.length + 1) s
  if hasConvergedMark s then
    match searchSome incPosMatchAt s with
    | none => none
    | some (tOpt, a, d, n) =>
      match tOpt with
      | none => none
      | some t =>
        if d = 0 then none
        else
          match mapOptM parseIncrementIteration (splitEqRule s).dropLast with
          | none => none
          | some iters =>
            match aggregateIterations iters with
            | none => none
            | some agg =>
              some (ParsedInc.converged
                { incNumber := a, incTime := t, incCutBack := ⟨1, d⟩,
                  incLoadCase := n, dg := agg.dg, pk := agg.pk,
                  numIters := (splitEqRule s).length - 1,
                  convergeErrors := agg.cols })
  else some (ParsedInc.nonConverged warns)

/-! ## Run-level aggregation (`read_spectral_stdout`) -/

/-- Association-list lookup for the run-level columns (`parsed_inc[j]` on a
converged increment's `error_<metric>` entries). -/
def lookupCols : List (String × ErrCols) → String → Option ErrCols
  | [], _ => none
  | (k, v) :: t, key => if k = key then some v else lookupCols t key

/-- The run-level loop `for j in err_keys: converge_errors[j][k].extend(parsed_inc[j][k])`.
The run-level columns carry exactly the keys of `err_keys` (both were built
from the first chunk's key list), so iterating the columns is iterating
`err_keys`; a key the increment does not expose raises `KeyError` (`none`). -/
def extendRunCols (ce : List (String × ErrCols)) (inc : List (String × ErrCols)) :
    Option (List (String × ErrCols)) :=
  mapOptM (fun kc =>
    match lookupCols inc kc.1 with
    | none => none
    | some ic => some (kc.1,
        { value := kc.2.value ++ ic.value,
          tol := kc.2.tol ++ ic.tol,
          relative := kc.2.relative ++ ic.relative }))
    ce

/-- Mutable state of the chunk loop in `read_spectral_stdout`: `err_keys`
and `converge_errors` start as `None` and are only assigned when the chunk
at index 0 converges. -/
structure AggState where
  dg : List (List (List PyFloat))
  pk : List (List (List PyFloat))
  incIdx : List Nat
  incNumber : List Nat
  incTime : List PyFloat
  incCutBack : List PyFloat
  incLoadCase : List Nat
  errKeys : Option (List String)
  convergeErrors : Option (List (String × ErrCols))
  warnings : List Warning
deriving DecidableEq, Repr

/-- Initial loop state of `read_spectral_stdout`. -/
def initAggState : AggState :=
  { dg := [], pk := [], incIdx := [], incNumber := [], incTime := [],
    incCutBack := [], incLoadCase := [], errKeys := none,
    convergeErrors := none, warnings := [] }

/-- Run-level result record of `read_spectral_stdout` (the numpy-array
conversions at the end of the source keep values and order unchanged and are
not modelled separately). -/
structure RunOut where
  dg : List (List (List PyFloat))
  pk : List (List (List PyFloat))
  incrementIdx : List Nat
  warnings : List Warning
  convergeErrors : List (String × ErrCols)
  incNumber : List Nat
  incTime : List PyFloat
  incCutBack : List PyFloat
  incLoadCase : List Nat
deriving DecidableEq, Repr

/-- The converged branch of the chunk loop (lines 302-316): extend the
flattened-iteration arrays, initialise `err_keys`/`converge_errors` when
(and only when) the chunk index is 0, and extend the error columns —
`for j in err_keys` over `None` raises (`none`), as does a `KeyError` for a
metric the increment does not expose. -/
def stdoutConvStep (idx : Nat) (st : AggState) (d : ConvergedInc) : Option AggState :=
  match (if idx = 0 then some (d.convergeErrors.map Prod.fst) else st.errKeys),
        (if idx = 0 then
           some ((d.convergeErrors.map Prod.fst).map (fun k => (k, ErrCols.empty)))
         else st.convergeErrors) with
  | some ks, some ce =>
    match extendRunCols ce d.convergeErrors with
    | none => none
    | some ce2 =>
      some { st with
        incIdx := st.incIdx ++ List.replicate d.numIters idx,
        dg := st.dg ++ d.dg,
        pk := st.pk ++ d.pk,
        errKeys := some ks,
        convergeErrors := some ce2,
        incNumber := st.incNumber ++ [d.incNumber],
        incTime := st.incTime ++ [d.incTime],
        incCutBack := st.incCutBack ++ [d.incCutBack],
        incLoadCase := st.incLoadCase ++ [d.incLoadCase] }
  | _, _ => none

/-- One pass of the chunk loop of `read_spectral_stdout` (lines 297-319):
a non-converged increment only extends `warnings`; a converged increment is
handled by `stdoutConvStep`. -/
def stdoutStep (idx : Nat) (st : AggState) (chunk : List Char) : Option AggState :=
  match parseIncrement chunk with
  | none => none
  | some (ParsedInc.nonConverged w) => some { st with warnings := st.warnings ++ w }
  | some (ParsedInc.converged d) => stdoutConvStep idx st d

/-- The chunk loop `for idx, i in enumerate(inc_split[1:])`. -/
def stdoutLoop : Nat → AggState → List (List Char) → Option AggState
  | _, st, [] => some st
  | idx, st, c :: t =>
    match stdoutStep idx st c with
    | none => none
    | some st2 => stdoutLoop (idx + 1) st2 t

/-- Embedding of `read_spectral_stdout` on the file's text: split on the
hash rule, discard the banner segment, run the chunk loop, then perform the
final numpy conversions — `for j in err_keys` with `err_keys = None` (no
chunk of index 0 converged) raises (`none`). -/
def readSpectralStdout (content : String) : Option RunOut :=
  match stdoutLoop 0 initAggState ((splitHashRule content.toList).drop 1) with
  | none => none
  | some st =>
    match st.errKeys, st.convergeErrors with
    | some _, some ce =>
      some { dg := st.dg, pk := st.pk, incrementIdx := st.incIdx,
             warnings := st.warnings, convergeErrors := ce,
             incNumber := st.incNumber, incTime := st.incTime,
             incCutBack := st.incCutBack, incLoadCase := st.incLoadCase }
    | _, _ => none

/-- The warnings a chunk contributes to the run-level list: those of a
non-converged increment; a converged increment's record has no `warnings`
key and contributes nothing. -/
def nonConvWarnings (chunk : List Char) : List Warning :=
  match parseIncrement chunk with
  | some (ParsedInc.nonConverged w) => w
  | _ => []

/-! ## Geometry reader (`read_geom`) -/

/-- One match attempt of `grid\s+a\s+(\d+)\s+b\s+(\d+)\s+c\s+(\d+)`. -/
def gridMatchAt (s : List Char) : Option (Nat × Nat × Nat) :=
  match eatLit "grid".toList s with
  | none => none
  | some r =>
    match eatWs1 r with
    | none => none
    | some r =>
      match eatLit ['a'] r with
      | none => none
      | some r =>
        match eatWs1 r with
        | none => none
        | some r =>
          match eatNat r with
          | none => none
          | some (a, r) =>
            match eatWs1 r with
            | none => none
            | some r =>
              match eatLit ['b'] r with
              | none => none
              | some r =>
                match eatWs1 r with
                | none => none
                | some r =>
                  match eatNat r with
                  | none => none
                  | some (b, r) =>
                    match eatWs1 r with
                    | none => none
                    | some r =>
                      match eatLit ['c'] r with
                      | none => none
                      | some r =>
                        match eatWs1 r with
                        | none => none
                        | some r =>
                          match eatNat r with
                          | none => none
                          | some (c, _) => some (a, b, c)

/-- One match attempt of a three-float header pattern such as
`size\s+x\s+(\d+\.\d+)\s+y\s+(\d+\.\d+)\s+z\s+(\d+\.\d+)` (also used for
`origin`): the keyword and the three axis letters are parameters. -/
def tripleFloatMatchAt (kw : List Char) (ax1 ax2 ax3 : Char) (s : List Char) :
    Option (PyFloat × PyFloat × PyFloat) :=
  match eatLit kw s with
  | none => none
  | some r =>
    match eatWs1 r with
    | none => none
    | some r =>
      match eatLit [ax1] r with
      | none => none
      | some r =>
        match eatWs1 r with
        | none => none
        | some r =>
          match eatFloatTok false r with
          | none => none
          | some (x, r) =>
            match eatWs1 r with
            | none => none
            | some r =>
              match eatLit [ax2] r with
              | none => none
              | some r =>
                match eatWs1 r with
                | none => none
                | some r =>
                  match eatFloatTok false r with
                  | none => none
                  | some (y, r) =>
                    match eatWs1 r with
                    | none => none
                    | some r =>
                      match eatLit [ax3] r with
                      | none => none
                      | some r =>
                        match eatWs1 r with
                        | none => none
                        | some r =>
                          match eatFloatTok false r with
                          | none => none
                          | some (z, _) => some (x, y, z)

/-- One match attempt of `homogenization\s+(\d+)`. -/
def homoMatchAt (s : List Char) : Option Nat :=
  match eatLit "homogenization".toList s with
  | none => none
  | some r =>
    match eatWs1 r with
    | none => none
    | some r =>
      match eatNat r with
      | none => none
      | some (h, _) => some h

/-- `re.findall(r'(geom_.*)', lines)`: each match runs from a `geom_`
occurrence to the end of its line, and scanning resumes after the match. -/
def findAllCmds : Nat → List Char → List String
  | 0, _ => []
  | fuel + 1, s =>
    match eatLit "geom_".toList s with
    | some r =>
      let rest := r.takeWhile (· ≠ '\n')
      String.mk ("geom_".toList ++ rest) :: findAllCmds fuel (r.drop rest.length)
    | none =>
      match s with
      | [] => []
      | _ :: t => findAllCmds fuel t

/-- First index at which `pat` occurs in `s`. -/
def firstIdxFrom (pat : List Char) : List Char → Nat → Option Nat
  | s, i =>
    if (eatLit pat s).isSome then some i
    else
      match s with
      | [] => none
      | _ :: t => firstIdxFrom pat t (i + 1)

/-- Last index at which `pat` occurs in `s`. -/
def lastIdxFrom (pat : List Char) : List Char → Nat → Option Nat → Option Nat
  | s, i, best =>
    let best2 := if (eatLit pat s).isSome then some i else best
    match s with
    | [] => best2
    | _ :: t => lastIdxFrom pat t (i + 1) best2

/-- The section patterns `\<microstructure\>[\s\S]*\(constituent\).*` and
`\<texture\>[\s\S]*\(gauss\).*`: the match starts at the first occurrence of
the opening tag, the greedy `[\s\S]*` stretches to the last occurrence of
the closing tag (the tags share no characters, so no later start can
succeed when the first cannot), and the trailing `.*` extends the match to
the end of that line.  Returns the matched text. -/
def findSection (openTag closeTag : List Char) (s : List Char) : Option (List Char) :=
  match firstIdxFrom openTag s 0 with
  | none => none
  | some i =>
    let suf := s.drop i
    match lastIdxFrom closeTag suf 0 none with
    | none => none
    | some j =>
      let stop := j + closeTag.length
      some (suf.take (stop + ((suf.drop stop).takeWhile (· ≠ '\n')).length))

/-- Modelled from the spec: `get_num_header_lines` lives in
`damask_parse.utils`, outside the embedded sources.  Per the spec's Header
Detector contract it parses one leading integer token of the text as the
count of header lines and fails with a format error when the leading token
is not an integer. -/
def getNumHeaderLines (content : String) : Option Nat :=
  let ds := content.toList.takeWhile isDigitCh
  if ds.isEmpty then none else some (digitsToNat ds)

/-- Result of the external `parse_microstructure` collaborator
(`damask_parse.legacy.readers`, outside the embedded sources): per-grain
phase and orientation index arrays, per the spec's description of the
microstructure sub-parser. -/
structure Micro where
  phaseIdx : List Int
  textureIdx : List Int
deriving DecidableEq, Repr

/-- Result of the external `parse_texture_gauss` collaborator: the
orientation table with its Euler-angle rows and labels. -/
structure TexTable where
  eulerAngles : List (List PyFloat)
  eulerAngleLabels : List String
deriving DecidableEq, Repr

/-- Metadata dict of the volume element. -/
structure GeomMeta where
  numHeader : Nat
  commands : List String
deriving DecidableEq, Repr

/-- The volume-element dict returned by `read_geom`. -/
structure VolElem where
  grid : List Nat
  size : Option (List PyFloat)
  origin : Option (List PyFloat)
  orientations : Option TexTable
  voxelGrainIdx : List (List (List Int))
  voxelHomogenizationIdx : Option (List (List (List Int)))
  grainPhaseLabelIdx : Option (List Int)
  grainOrientationIdx : Option (List Int)
  meta : GeomMeta
deriving DecidableEq, Repr

/-- Entry `(r, c)` of `grain_idx_2d`: the array is `np.zeros` of shape
`(grid_y * grid_z, grid_x)` and the body lines are assigned row by row, so
a position no body line reached stays `0`. -/
def grainRowEntry (rows : List (List Int)) (r c : Nat) : Int :=
  (rows.getD r []).getD c 0

/-- Row-major flat view of `grain_idx_2d` (row length `grid_x`), through
which numpy's C-order `reshape` is defined. -/
def flat2d (gx : Nat) (rows : List (List Int)) (n : Nat) : Int :=
  grainRowEntry rows (n / gx) (n % gx)

/-- `grain_idx_2d.reshape(grid[::-1])` (C order): entry `(z, y, x)` of the
`(grid_z, grid_y, grid_x)` array is flat entry `z*(gy*gx) + y*gx + x`. -/
def reshape3At (gx gy : Nat) (rows : List (List Int)) (z y x : Nat) : Int :=
  flat2d gx rows (z * (gy * gx) + y * gx + x)

/-- Entry `(x, y, z)` of `voxel_grain_idx`: the reshaped array after
`.swapaxes(0, 2)` and the `-= 1` zero-indexing shift. -/
def voxelGrainIdxFn (gx gy : Nat) (rows : List (List Int)) (x y z : Nat) : Int :=
  reshape3At gx gy rows z y x - 1

/-- Materialise a 3-D array of shape `(gx, gy, gz)` from an entry
function. -/
def mk3d (gx gy gz : Nat) (f : Nat → Nat → Nat → Int) : List (List (List Int)) :=
  (List.range gx).map fun x => (List.range gy).map fun y => (List.range gz).map fun z => f x y z

/-- A parsed body line as numpy assigns it to a row of `grain_idx_2d`: a
full row of `grid_x` values is stored as is, a single value broadcasts over
the row, any other length raises (`none`). -/
def normRow (gx : Nat) (ints : List Int) : Option (List Int) :=
  if ints.length = gx then some ints
  else
    match ints with
    | [v] => some (List.replicate gx v)
    | _ => none

/-- The orientation-index cross-validation of `read_geom` (lines 225-231):
`np.min(grain_orientation_idx) < 0 or np.max(grain_orientation_idx) >
len(orientations['euler_angles'])` raises `ValueError` when true.  With no
microstructure section `grain_orientation_idx` is `None` and `np.min`/the
comparison raise; with no texture section `orientations` is `None` and the
subscript raises; `np.min` of an empty array raises as well.  All raised
paths are `none`. -/
def validateOrientationIdx : Option (List Int) → Option TexTable → Option Unit
  | none, _ => none
  | some [], _ => none
  | some (g :: gs), oris =>
    if gs.foldl min g < 0 then none
    else
      match oris with
      | none => none
      | some t =>
        if gs.foldl max g > (t.eulerAngles.length : Int) then none else some ()

/-- Embedding of `read_geom` on the file's text.  The two section
sub-parsers live in `damask_parse.legacy.readers`, outside the embedded
sources, and are taken as parameters (a collaborator that raises is modelled
as returning `none`).  Header-line counting is the spec-modelled
`getNumHeaderLines`.  Body lines are every line with index greater than
`num_header`; assigning more of them than `grid_y * grid_z` raises
(`IndexError`), as does a token `int()` cannot parse or a row numpy cannot
broadcast. -/
def read_geom (pm : String → Option Micro) (pt : String → Option TexTable)
    (content : String) : Option VolElem :=
  match getNumHeaderLines content with
  | none => none
  | some numHeader =>
    let cs := content.toList
    match searchSome gridMatchAt cs with
    | none => none
    | some (gx, gy, gz) =>
      let bodyLines := (splitLinesCh cs).drop (numHeader + 1)
      if bodyLines.length > gy * gz then none
      else
        match mapOptM (fun ln =>
            match mapOptM parseIntTok (splitWsCh ln) with
            | none => none
            | some ints => normRow gx ints) bodyLines with
        | none => none
        | some rows =>
          let msRes : Option (Option (List Int) × Option (List Int)) :=
            match findSection "<microstructure>".toList "(constituent)".toList cs with
            | none => some (none, none)
            | some str =>
              match pm (String.mk str) with
              | none => none
              | some m => some (some m.phaseIdx, some m.textureIdx)
          match msRes with
          | none => none
          | some (gpli, goi) =>
            let texRes : Option (Option TexTable) :=
              match findSection "<texture>".toList "(gauss)".toList cs with
              | none => some none
              | some str =>
                match pt (String.mk str) with
                | none => none
                | some t => some (some t)
            match texRes with
            | none => none
            | some oris =>
              match validateOrientationIdx goi oris with
              | none => none
              | some _ =>
                some { grid := [gx, gy, gz],
                       size := (searchSome (tripleFloatMatchAt "size".toList 'x' 'y' 'z') cs).map
                         (fun v => [v.1, v.2.1, v.2.2]),
                       origin := (searchSome (tripleFloatMatchAt "origin".toList 'x' 'y' 'z') cs).map
                         (fun v => [v.1, v.2.1, v.2.2]),
                       orientations := oris,
                       voxelGrainIdx := mk3d gx gy gz (voxelGrainIdxFn gx gy rows),
                       voxelHomogenizationIdx := (searchSome homoMatchAt cs).map
                         (fun h => mk3d gx gy gz (fun _ _ _ => (h : Int) - 1)),
                       grainPhaseLabelIdx := gpli,
                       grainOrientationIdx := goi,
                       meta := { numHeader := numHeader,
                                 commands := findAllCmds (cs.length + 1) cs } }

/-! ## Concrete inputs for the claims -/

/-- The 75-character `=` iteration rule. -/
def eqRuleStr : String := String.mk (List.replicate 75 '=')

/-- A whitespace character followed by the 75-character `#` increment rule
(one `\s#{75}` separator occurrence). -/
def sepHash : String := String.mk ('\n' :: List.replicate 75 '#')

/-- A converged increment chunk whose header line is the one of the claim:
`Time 1.0000E+00s: Increment 3/10-1/1 of load case 2`. -/
def chunkC7 : String :=
  " Time 1.0000E+00s: Increment 3/10-1/1 of load case 2\n deformation gradient aim =\n 1.000 0.000 0.000 0.000 1.000 0.000 0.000 0.000 1.000\n Piola--Kirchhoff stress / MPa =\n 0.500 0.000 0.000 0.000 0.500 0.000 0.000 0.000 0.500\n error divergence = 0.50 (1.00E-01 1/m, tol = 2.00E-01)\n"
  ++ eqRuleStr ++ "\n increment 3 converged\n"

/-- First iteration segment of the two-iteration chunk `chunkC5`: one error
metric (`divergence`). -/
def iterSeg5a : String :=
  " Time 3.0000E-01s: Increment 1/10-1/1 of load case 1\n deformation gradient aim =\n 1.000 0.000 0.000 0.000 1.000 0.000 0.000 0.000 1.000\n Piola--Kirchhoff stress / MPa =\n 0.100 0.000 0.000 0.000 0.100 0.000 0.000 0.000 0.100\n error divergence = 0.80 (4.00E-01 1/m, tol = 5.00E-01)\n"

/-- Second iteration segment of `chunkC5`: the same metric plus an extra
one (`stress`). -/
def iterSeg5b : String :=
  "\n deformation gradient aim =\n 1.000 0.000 0.000 0.000 1.000 0.000 0.000 0.000 1.000\n Piola--Kirchhoff stress / MPa =\n 0.200 0.000 0.000 0.000 0.200 0.000 0.000 0.000 0.200\n error divergence = 0.40 (2.00E-01 1/m, tol = 5.00E-01)\n error stress = 0.30 (3.00E+00 Pa, tol = 1.00E+01)\n"

/-- A converged increment chunk whose second iteration exposes a strict
superset of the first iteration's metric keys. -/
def chunkC5 : String :=
  iterSeg5a ++ eqRuleStr ++ iterSeg5b ++ eqRuleStr ++ "\n increment 1 converged\n"

/-- An iteration chunk whose nine tensor entries are written in scientific
notation after each label. -/
def iterSegC9sci : String :=
  " deformation gradient aim =\n 1.0000E+00 2.0000E+00 3.0000E+00 4.0000E+00 5.0000E+00 6.0000E+00 7.0000E+00 8.0000E+00 9.0000E+00\n Piola--Kirchhoff stress / MPa =\n 1.0000E+00 0.0000E+00 0.0000E+00 0.0000E+00 1.0000E+00 0.0000E+00 0.0000E+00 0.0000E+00 1.0000E+00\n"

/-- The same iteration chunk with the nine entries in fixed-point
notation. -/
def iterSegC9fix : String :=
  " deformation gradient aim =\n 1.100 2.200 3.300 4.400 5.500 6.600 7.700 8.800 9.900\n Piola--Kirchhoff stress / MPa =\n 0.100 0.200 0.300 0.400 0.500 0.600 0.700 0.800 0.900\n"

/-- An iteration chunk with a well-formed deformation-gradient block and no
Piola-Kirchhoff block. -/
def iterSegC8dg : String :=
  " deformation gradient aim =\n 1.000 0.000 0.000 0.000 1.000 0.000 0.000 0.000 1.000\n other report text\n"

/-- An iteration chunk with a well-formed Piola-Kirchhoff block and no
deformation-gradient-aim label. -/
def iterSegC8pk : String :=
  " Piola--Kirchhoff stress / MPa =\n 1.000 0.000 0.000 0.000 1.000 0.000 0.000 0.000 1.000\n"

/-- A box-drawn warning block (code 47, two message fragments). -/
def warnBlock : String :=
  " ┌─────────────┐\n │ warning │\n │ 47 │\n ├─────────────┤\n │ deprecated keyword │\n │ please update │\n └─────────────┘\n"

/-- A converged increment chunk that also contains a warning block. -/
def chunkC2 : String :=
  "\n" ++ warnBlock ++
  " Time 1.0000E+00s: Increment 2/10-1/1 of load case 1\n deformation gradient aim =\n 1.000 0.000 0.000 0.000 1.000 0.000 0.000 0.000 1.000\n Piola--Kirchhoff stress / MPa =\n 0.300 0.000 0.000 0.000 0.300 0.000 0.000 0.000 0.300\n error divergence = 0.10 (1.00E-02 1/m, tol = 1.00E-01)\n"
  ++ eqRuleStr ++ "\n increment 2 converged\n"

/-- A log whose only increment chunk is `chunkC2`: converged, with a
warning block. -/
def logC2 : String := "banner" ++ sepHash ++ chunkC2

/-- A non-converged increment chunk containing the warning block. -/
def ncChunkWarn : String := "\n" ++ warnBlock ++ " solver stopped\n"

/-- A log whose first chunk converges and whose second chunk does not and
carries a warning block. -/
def logW : String := "banner" ++ sepHash ++ chunkC7 ++ sepHash ++ ncChunkWarn

/-- A non-converged increment chunk with no warning block. -/
def ncChunkPlain : String := "\n increment 5 did not converge\n"

/-- A log whose first increment chunk does not converge and whose second
does. -/
def logC3 : String := "banner" ++ sepHash ++ ncChunkPlain ++ sepHash ++ chunkC7

/-- A log containing only one non-converged increment chunk, with one
warning block. -/
def logC4 : String := "banner" ++ sepHash ++ ncChunkWarn

/-- A geometry file with a valid header-count line, grid pattern and body,
and neither a microstructure nor a texture section. -/
def geomC10 : String := "1 header\ngrid a 2 b 2 c 2\n1 1\n1 1\n1 1\n1 1\n"

/-- A geometry file with microstructure and texture sections inside its
header block. -/
def geomC1 : String :=
  "8 header\ngrid a 1 b 1 c 1\n<microstructure>\n[grain1]\ncrystallite 1\n(constituent) phase 1 texture 3 fraction 1.0\n<texture>\n[orient1]\n(gauss) phi1 0.0 Phi 0.0 phi2 0.0\n1\n"

/-- Concrete stand-in for the external `parse_microstructure` collaborator:
one grain whose orientation index equals the number of orientations that
`ptC1` declares. -/
def pmC1 : String → Option Micro :=
  fun _ => some { phaseIdx := [0], textureIdx := [2] }

/-- Concrete stand-in for the external `parse_texture_gauss` collaborator:
two orientations. -/
def ptC1 : String → Option TexTable :=
  fun _ => some { eulerAngles := [[PyFloat.ofNat 0, PyFloat.ofNat 0, PyFloat.ofNat 0],
                                  [PyFloat.ofNat 0, PyFloat.ofNat 0, PyFloat.ofNat 0]],
                  eulerAngleLabels := ["phi1", "Phi", "phi2"] }

/-! ## Accessors used by the theorems -/

/-- Whether a parsed increment is the converged variant. -/
def isConvergedRec : ParsedInc → Bool
  | ParsedInc.converged _ => true
  | ParsedInc.nonConverged _ => false

/-- Position metadata of a converged parsed increment, with the two float
entries compared by value to a whole number. -/
def posMetaView : ParsedInc → Option (Nat × Bool × Bool × Nat)
  | ParsedInc.converged d =>
    some (d.incNumber, d.incTime.eqv (PyFloat.ofNat 1), d.incCutBack.eqv (PyFloat.ofNat 1),
          d.incLoadCase)
  | _ => none

/-- The `error_<metric>` keys of a converged parsed increment, in order. -/
def parsedErrKeys : ParsedInc → Option (List String)
  | ParsedInc.converged d => some (d.convergeErrors.map Prod.fst)
  | _ => none

/-- Body rows for a 2x2x2 grid, all entries 1 except a single 2 at body
line `r`, column `c`. -/
def c6body (r c : Nat) : List (List Int) :=
  (List.range 4).map fun i => (List.range 2).map fun j => if i = r ∧ j = c then (2 : Int) else 1

/-! ## Helper lemmas -/

/-- A key that occurs in an association list is found by `lookupErr`. -/
theorem lookupErr_isSome_of_mem (l : List (String × ErrVal)) (k : String)
    (h : k ∈ l.map Prod.fst) : (lookupErr l k).isSome = true := by
  induction l with
  | nil => simp at h
  | cons p t ih =>
    obtain ⟨k0, v0⟩ := p
    rw [List.map_cons] at h
    rcases List.mem_cons.mp h with h1 | h2
    · simp only at h1
      simp [lookupErr, h1]
    · by_cases hk : k0 = k
      · simp [lookupErr, hk]
      · simp [lookupErr, hk, ih h2]

/-- `mapOptM` succeeds exactly when every element succeeds. -/
theorem mapOptM_isSome_iff (f : α → Option β) :
    ∀ l : List α, (mapOptM f l).isSome = true ↔ ∀ a ∈ l, (f a).isSome = true := by
  intro l
  induction l with
  | nil => simp [mapOptM]
  | cons x t ih =>
    simp only [mapOptM, List.forall_mem_cons]
    cases hx : f x with
    | none =>
      apply iff_of_false
      · simp
      · intro hall
        exact absurd hall.1 (by simp)
    | some y =>
      cases ht : mapOptM f t with
      | none =>
        apply iff_of_false
        · simp
        · intro hall
          have := ih.mpr hall.2
          rw [ht] at this
          simp at this
      | some ys =>
        apply iff_of_true
        · simp
        · refine ⟨by simp [hx], ?_⟩
          have := ih.mp (by simp [ht])
          exact this

/-- `mapOptM` transported along a per-element projection equality. -/
theorem mapOptM_map_eq (f : α → Option β) (g1 : α → γ) (g2 : β → γ)
    (hf : ∀ a b, f a = some b → g2 b = g1 a) :
    ∀ (l : List α) (l2 : List β), mapOptM f l = some l2 → l2.map g2 = l.map g1 := by
  intro l
  induction l with
  | nil =>
    intro l2 h
    simp [mapOptM] at h
    simp [← h]
  | cons x t ih =>
    intro l2 h
    simp only [mapOptM] at h
    cases hx : f x with
    | none => rw [hx] at h; simp at h
    | some y =>
      rw [hx] at h
      cases ht : mapOptM f t with
      | none => rw [ht] at h; simp at h
      | some ys =>
        rw [ht] at h
        simp only [Option.some.injEq] at h
        subst h
        simp [List.map_cons, hf x y hx, ih ys ht]

/-- One column entry of the loop body succeeds exactly when the iteration
exposes its key. -/
theorem appendColsOne_isSome (it : IncIter) (kc : String × ErrCols) :
    (appendColsOne it kc).isSome = (lookupErr it.errors kc.1).isSome := by
  cases h : lookupErr it.errors kc.1 <;> simp [appendColsOne, h]

/-- The loop body preserves the key of a column entry. -/
theorem appendColsOne_keeps_key (it : IncIter) (kc kc2 : String × ErrCols)
    (h : appendColsOne it kc = some kc2) : kc2.1 = kc.1 := by
  unfold appendColsOne at h
  cases hl : lookupErr it.errors kc.1 with
  | none => rw [hl] at h; simp at h
  | some v => rw [hl] at h; simp only [Option.some.injEq] at h; rw [← h]

/-- `appendCols` succeeds exactly when the iteration exposes every key of
the column record. -/
theorem appendCols_isSome_iff (cols : List (String × ErrCols)) (it : IncIter) :
    (appendCols cols it).isSome = true ↔
      ∀ k ∈ cols.map Prod.fst, (lookupErr it.errors k).isSome = true := by
  rw [appendCols, mapOptM_isSome_iff]
  constructor
  · intro h k hk
    obtain ⟨kc, hmem, hfst⟩ := List.mem_map.mp hk
    have h2 := h kc hmem
    rw [appendColsOne_isSome] at h2
    rw [← hfst]
    exact h2
  · intro h kc hmem
    rw [appendColsOne_isSome]
    exact h kc.1 (List.mem_map_of_mem Prod.fst hmem)

/-- `appendCols` preserves the ordered key list of the columns. -/
theorem appendCols_keys (cols : List (String × ErrCols)) (it : IncIter)
    (cols2 : List (String × ErrCols)) (h : appendCols cols it = some cols2) :
    cols2.map Prod.fst = cols.map Prod.fst :=
  mapOptM_map_eq (appendColsOne it) Prod.fst Prod.fst
    (fun a b hb => appendColsOne_keeps_key it a b hb) cols cols2 h

/-- `aggStep` succeeds exactly when its column bookkeeping does. -/
theorem aggStep_isSome_iff (st : AggAcc) (it : IncIter) :
    (aggStep st it).isSome = true ↔ (appendCols st.cols it).isSome = true := by
  cases h : appendCols st.cols it <;> simp [aggStep, h]

/-- `aggStep` preserves the ordered key list of the columns. -/
theorem aggStep_some_cols (st : AggAcc) (it : IncIter) (st2 : AggAcc)
    (h : aggStep st it = some st2) : st2.cols.map Prod.fst = st.cols.map Prod.fst := by
  unfold aggStep at h
  cases hc : appendCols st.cols it with
  | none => rw [hc] at h; simp at h
  | some c2 =>
    rw [hc] at h
    simp only [Option.some.injEq] at h
    rw [← h]
    exact appendCols_keys st.cols it c2 hc

/-- The iteration fold succeeds exactly when every iteration of the list
exposes every key of the running column record. -/
theorem aggLoop_isSome_iff :
    ∀ (its : List IncIter) (st : AggAcc),
      (foldOptM aggStep st its).isSome = true ↔
        ∀ it ∈ its, ∀ k ∈ st.cols.map Prod.fst, (lookupErr it.errors k).isSome = true := by
  intro its
  induction its with
  | nil => intro st; simp [foldOptM]
  | cons it t ih =>
    intro st
    simp only [foldOptM, List.forall_mem_cons]
    cases hstep : aggStep st it with
    | none =>
      apply iff_of_false
      · simp
      · intro hall
        have h2 : (appendCols st.cols it).isSome = true :=
          (appendCols_isSome_iff st.cols it).mpr hall.1
        have h3 : (aggStep st it).isSome = true := (aggStep_isSome_iff st it).mpr h2
        rw [hstep] at h3
        simp at h3
    | some st2 =>
      have hkeys := aggStep_some_cols st it st2 hstep
      have hhead : ∀ k ∈ st.cols.map Prod.fst, (lookupErr it.errors k).isSome = true := by
        apply (appendCols_isSome_iff st.cols it).mp
        apply (aggStep_isSome_iff st it).mp
        simp [hstep]
      rw [ih st2]
      simp only [hkeys]
      constructor
      · intro h
        exact ⟨hhead, h⟩
      · intro h
        exact h.2

/-- The keys of the freshly allocated column record are the given keys. -/
theorem initCols_keys (keys : List String) :
    ((keys.map fun k => (k, ErrCols.empty)).map Prod.fst) = keys := by
  induction keys with
  | nil => rfl
  | cons k t ih => simp [ih]

/-- The converged branch of the chunk loop never touches the run-level
warnings list. -/
theorem stdoutConvStep_warnings (idx : Nat) (st : AggState) (d : ConvergedInc)
    (st2 : AggState) (h : stdoutConvStep idx st d = some st2) :
    st2.warnings = st.warnings := by
  unfold stdoutConvStep at h
  split at h
  · rename_i ks ce _ _
    cases hext : extendRunCols ce d.convergeErrors with
    | none => rw [hext] at h; simp at h
    | some ce2 =>
      rw [hext] at h
      simp only [Option.some.injEq] at h
      rw [← h]
  · simp at h

/-- One chunk-loop pass appends exactly the chunk's non-converged
warnings. -/
theorem stdoutStep_warnings (idx : Nat) (st : AggState) (c : List Char) (st2 : AggState)
    (h : stdoutStep idx st c = some st2) :
    st2.warnings = st.warnings ++ nonConvWarnings c := by
  unfold stdoutStep at h
  unfold nonConvWarnings
  cases hp : parseIncrement c with
  | none => rw [hp] at h; simp at h
  | some p =>
    rw [hp] at h
    cases p with
    | nonConverged w =>
      simp only [Option.some.injEq] at h
      rw [← h]
    | converged d =>
      rw [stdoutConvStep_warnings idx st d st2 h]
      simp

/-- The chunk loop accumulates, in encounter order, exactly the
non-converged chunks' warnings. -/
theorem stdoutLoop_warnings :
    ∀ (chunks : List (List Char)) (idx : Nat) (st st2 : AggState),
      stdoutLoop idx st chunks = some st2 →
      st2.warnings = st.warnings ++ (chunks.map nonConvWarnings).flatten := by
  intro chunks
  induction chunks with
  | nil =>
    intro idx st st2 h
    simp only [stdoutLoop, Option.some.injEq] at h
    rw [← h]
    simp
  | cons c t ih =>
    intro idx st st2 h
    simp only [stdoutLoop] at h
    cases hs : stdoutStep idx st c with
    | none => rw [hs] at h; simp at h
    | some stm =>
      rw [hs] at h
      have h1 := stdoutStep_warnings idx st c stm hs
      have h2 := ih (idx + 1) stm st2 h
      rw [h2, h1]
      simp [List.flatten]

/-! ## Claim theorems -/

set_option maxRecDepth 20000 in
/-- C1: the orientation-index cross-validation of `read_geom` does not
enforce an exclusive upper bound.  On a geometry file with microstructure
and texture sections whose collaborators yield `grain_orientation_idx = [2]`
and exactly two orientations, parsing succeeds even though the index equals
`len(orientations)`: the source's check `np.max(...) > len(...)` is
non-strict, contradicting the zero-indexed documentation of the field. -/
theorem read_geom_accepts_index_eq_len :
    (read_geom pmC1 ptC1 geomC1).map VolElem.grainOrientationIdx = some (some [2]) ∧
    (read_geom pmC1 ptC1 geomC1).map (fun v => v.orientations.map fun t => t.eulerAngles.length)
      = some (some 2) :=
  ⟨rfl, rfl⟩

set_option maxRecDepth 20000 in
/-- C2 (counterexample): a warning block inside a converged increment chunk
does not reach the run-level warnings list.  The single chunk of `logC2` is
converged and contains one warning block, yet `read_spectral_stdout`
returns an empty warnings list. -/
theorem readSpectralStdout_drops_converged_warnings :
    (parseIncrement chunkC2.toList).map isConvergedRec = some true ∧
    findAllWarn (chunkC2.toList.length + 1) chunkC2.toList
      = [{ code := 47, message := "deprecated keyword please update" }] ∧
    (readSpectralStdout logC2).map RunOut.warnings = some [] :=
  ⟨rfl, rfl, rfl⟩

/-- C2 (amended): the run-level warnings list of `read_spectral_stdout` is
the concatenation, in encounter order, of the warning records of the
non-converged increment chunks only; converged chunks contribute nothing. -/
theorem readSpectralStdout_warnings_from_nonconverged (content : String)
    (h : (readSpectralStdout content).isSome = true) :
    (readSpectralStdout content).map RunOut.warnings
      = some ((((splitHashRule content.toList).drop 1).map nonConvWarnings).flatten) := by
  cases hl : stdoutLoop 0 initAggState ((splitHashRule content.toList).drop 1) with
  | none =>
    have hz : readSpectralStdout content = none := by
      unfold readSpectralStdout
      rw [hl]
    rw [hz] at h
    simp at h
  | some st =>
    have hw := stdoutLoop_warnings _ 0 initAggState st hl
    cases hk : st.errKeys with
    | none =>
      have hz : readSpectralStdout content = none := by
        unfold readSpectralStdout
        rw [hl]
        simp [hk]
      rw [hz] at h
      simp at h
    | some ks =>
      cases hc : st.convergeErrors with
      | none =>
        have hz : readSpectralStdout content = none := by
          unfold readSpectralStdout
          rw [hl]
          simp [hk, hc]
        rw [hz] at h
        simp at h
      | some ce =>
        have hz : readSpectralStdout content
            = some { dg := st.dg, pk := st.pk, incrementIdx := st.incIdx,
                     warnings := st.warnings, convergeErrors := ce,
                     incNumber := st.incNumber, incTime := st.incTime,
                     incCutBack := st.incCutBack, incLoadCase := st.incLoadCase } := by
          unfold readSpectralStdout
          rw [hl]
          simp [hk, hc]
        rw [hz]
        simp [hw, initAggState]

set_option maxRecDepth 20000 in
/-- C2 (witness): the amended statement evaluated on a log with one
converged chunk and one non-converged chunk that carries a warning. -/
theorem readSpectralStdout_warnings_from_nonconverged_witness :
    (readSpectralStdout logW).map RunOut.warnings
      = some ((((splitHashRule logW.toList).drop 1).map nonConvWarnings).flatten) :=
  readSpectralStdout_warnings_from_nonconverged logW (by rfl)

set_option maxRecDepth 60000 in
/-- C3: when the first increment chunk of the log does not converge and a
later one does, `read_spectral_stdout` raises (`err_keys` is still `None`
inside the converged branch) instead of fixing the error-metric keys at the
first converged increment: `logC3` has a non-converged first chunk and a
converged second chunk, and parsing the whole log fails. -/
theorem readSpectralStdout_first_chunk_nonconverged_raises :
    (parseIncrement ncChunkPlain.toList).map isConvergedRec = some false ∧
    (parseIncrement chunkC7.toList).map isConvergedRec = some true ∧
    readSpectralStdout logC3 = none :=
  ⟨rfl, rfl, rfl⟩

set_option maxRecDepth 20000 in
/-- C4: on a log containing only non-converged increments,
`read_spectral_stdout` raises (the final `for j in err_keys` iterates
`None`) instead of returning a record with empty arrays: the only chunk of
`logC4` is non-converged and carries one warning block, and parsing the
whole log fails. -/
theorem readSpectralStdout_only_nonconverged_raises :
    (parseIncrement ncChunkWarn.toList).map isConvergedRec = some false ∧
    nonConvWarnings ncChunkWarn.toList
      = [{ code := 47, message := "deprecated keyword please update" }] ∧
    readSpectralStdout logC4 = none :=
  ⟨rfl, rfl, rfl⟩

set_option maxRecDepth 40000 in
/-- C5 (counterexample): an extra metric key in a later iteration of the
same increment does not cause a failure and is silently dropped: the second
iteration of `chunkC5` exposes `error_divergence` and `error_stress`, the
first only `error_divergence`, and `parse_increment` succeeds with exactly
`[error_divergence]` as the key set. -/
theorem parse_increment_extra_metric_ignored :
    (parseIncrementIteration iterSeg5a.toList).map errKeysOf = some ["error_divergence"] ∧
    (parseIncrementIteration iterSeg5b.toList).map errKeysOf
      = some ["error_divergence", "error_stress"] ∧
    (parseIncrement chunkC5.toList).map parsedErrKeys = some (some ["error_divergence"]) :=
  ⟨rfl, rfl, rfl⟩

/-- C5 (amended): within one converged increment the iteration aggregation
of `parse_increment` succeeds exactly when every later iteration exposes
every metric key captured from the first iteration: a missing key is a hard
failure (no partial record), while extra keys of later iterations are
ignored. -/
theorem aggregateIterations_isSome_iff (it0 : IncIter) (rest : List IncIter) :
    (aggregateIterations (it0 :: rest)).isSome = true ↔
      ∀ it ∈ rest, ∀ k ∈ errKeysOf it0, (lookupErr it.errors k).isSome = true := by
  unfold aggregateIterations
  rw [aggLoop_isSome_iff]
  simp only [List.forall_mem_cons, initCols_keys]
  constructor
  · intro h
    exact h.2
  · intro h
    refine ⟨?_, h⟩
    intro k hk
    exact lookupErr_isSome_of_mem it0.errors k hk

/-- C6: the voxel layout of `read_geom` — body integers laid into a
`(grid_y * grid_z, grid_x)` array in line order, reshaped to
`(grid_z, grid_y, grid_x)`, axes 0 and 2 swapped, values decremented — for
`grid = [2,2,2]` with all entries 1 except a single 2 at body line `r`,
column `c`, yields 1 exactly at voxel `(c, r % 2, r / 2)` and 0
elsewhere. -/
theorem voxel_grain_layout (r c x y z : Nat) (hr : r < 4) (hc : c < 2)
    (hx : x < 2) (hy : y < 2) (hz : z < 2) :
    voxelGrainIdxFn 2 2 (c6body r c) x y z
      = if x = c ∧ y = r % 2 ∧ z = r / 2 then 1 else 0 := by
  interval_cases r <;> interval_cases c <;> interval_cases x <;> interval_cases y <;>
    interval_cases z <;> decide

/-- C6 (witness): the layout fact evaluated at body line 2, column 1 and
voxel `(1, 0, 1)`. -/
theorem voxel_grain_layout_witness :
    voxelGrainIdxFn 2 2 (c6body 2 1) 1 0 1 = 1 :=
  (voxel_grain_layout 2 1 1 0 1 (by decide) (by decide) (by decide) (by decide)
    (by decide)).trans (by decide)

set_option maxRecDepth 20000 in
/-- C7: the increment chunk whose header line is
`Time 1.0000E+00s: Increment 3/10-1/1 of load case 2` parses to
`inc_number = 3`, `inc_time = 1.0`, `inc_cut_back = 1/1 = 1.0` and
`inc_load_case = 2`. -/
theorem parse_increment_header_example :
    (parseIncrement chunkC7.toList).map posMetaView = some (some (3, true, true, 2)) :=
  rfl

/-- C8: `parse_increment_iteration` fails whenever the Piola-Kirchhoff
stress pattern finds no match, even if the deformation-gradient block is
present, and symmetrically whenever the deformation-gradient-aim pattern
finds no match. -/
theorem parseIncrementIteration_requires_tensors (s : List Char) :
    (searchSome pkMatchAt s = none → parseIncrementIteration s = none) ∧
    (searchSome dgMatchAt s = none → parseIncrementIteration s = none) := by
  constructor
  · intro h
    cases hdg : searchSome dgMatchAt s with
    | none => simp [parseIncrementIteration, hdg]
    | some dg => simp [parseIncrementIteration, hdg, h]
  · intro h
    simp [parseIncrementIteration, h]

set_option maxRecDepth 20000 in
/-- C8 (witness): one chunk with a well-formed deformation-gradient block
and no stress block, one chunk with a stress block and no
deformation-gradient label; both fail to parse. -/
theorem parseIncrementIteration_requires_tensors_witness :
    parseIncrementIteration iterSegC8dg.toList = none ∧
    parseIncrementIteration iterSegC8pk.toList = none :=
  ⟨(parseIncrementIteration_requires_tensors iterSegC8dg.toList).1 (by rfl),
   (parseIncrementIteration_requires_tensors iterSegC8pk.toList).2 (by rfl)⟩

set_option maxRecDepth 20000 in
/-- C9 (counterexample): an iteration chunk whose nine tensor entries are
written in scientific notation after the fixed labels fails to parse: the
tensor patterns are built from the fixed-point `float_pat` only. -/
theorem sci_notation_tensor_fails :
    parseIncrementIteration iterSegC9sci.toList = none :=
  rfl

set_option maxRecDepth 20000 in
/-- C9 (amended): `parse_increment_iteration` accepts the nine tensor
numbers in fixed-point notation only, returning the row-major 3x3 matrix;
the same chunk with scientific-notation entries fails. -/
theorem fixed_notation_tensor_parses :
    (parseIncrementIteration iterSegC9fix.toList).map (fun it => matEqv it.dg
      [[⟨11, 10⟩, ⟨22, 10⟩, ⟨33, 10⟩],
       [⟨44, 10⟩, ⟨55, 10⟩, ⟨66, 10⟩],
       [⟨77, 10⟩, ⟨88, 10⟩, ⟨99, 10⟩]]) = some true ∧
    parseIncrementIteration iterSegC9sci.toList = none :=
  ⟨rfl, rfl⟩

set_option maxRecDepth 20000 in
/-- C10: on a geometry file with a valid header-count line, grid pattern
and body but neither a microstructure nor a texture section, `read_geom`
raises (`np.min(None)`/the `None` comparison in the unconditional
cross-validation) instead of returning a volume element with those fields
unset. -/
theorem read_geom_missing_sections_raises :
    getNumHeaderLines geomC10 = some 1 ∧
    searchSome gridMatchAt geomC10.toList = some (2, 2, 2) ∧
    findSection "<microstructure>".toList "(constituent)".toList geomC10.toList = none ∧
    findSection "<texture>".toList "(gauss)".toList geomC10.toList = none ∧
    read_geom pmC1 ptC1 geomC10 = none :=
  ⟨rfl, rfl, rfl, rfl, rfl⟩
